import Mathlib

set_option autoImplicit false

/-!
# AApp document-store server: shallow embedding

Embedding of the Express server in `src/unnamed/part_000` (the complete
server; `part_001` is a truncated duplicate and `server.js` a read-only
stub).  JSON values are modelled by the inductive `Value`, JS objects by
association lists (`Doc`) read through `getField` (first match, mirroring
unique-key JS objects).  Handlers become pure functions from the
collections they read to the collections they write, plus the ordered
list of `writeCollection` calls they perform where a claim is about write
order.  `generateId()` and `new Date().toISOString()` are nondeterministic
at the JS level and are passed in as explicit arguments.
-/

namespace AApp

/-- JSON-compatible values.  JS `undefined` is represented by a missing
key (an `Option.none` lookup); `null` is `Value.null`.  Numbers are
modelled as integers: every number the server itself produces
(`likesCount`, array lengths) is a nonnegative integer. -/
inductive Value where
  | null
  | bool (b : Bool)
  | num  (n : Int)
  | str  (s : String)
  | arr  (xs : List Value)
  | obj  (fields : List (String × Value))
deriving Repr

mutual

/-- Decidable equality on `Value` (the nested `List` keeps the derive
handler from producing it). -/
def Value.decEq : (a b : Value) → Decidable (a = b)
  | .null, .null => isTrue rfl
  | .bool a, .bool b =>
      if h : a = b then isTrue (h ▸ rfl)
      else isFalse (fun hc => h (Value.bool.inj hc))
  | .num a, .num b =>
      if h : a = b then isTrue (h ▸ rfl)
      else isFalse (fun hc => h (Value.num.inj hc))
  | .str a, .str b =>
      if h : a = b then isTrue (h ▸ rfl)
      else isFalse (fun hc => h (Value.str.inj hc))
  | .arr a, .arr b =>
      match Value.decEqList a b with
      | isTrue h => isTrue (h ▸ rfl)
      | isFalse h => isFalse (fun hc => h (Value.arr.inj hc))
  | .obj a, .obj b =>
      match Value.decEqFields a b with
      | isTrue h => isTrue (h ▸ rfl)
      | isFalse h => isFalse (fun hc => h (Value.obj.inj hc))
  | .null, .bool _ | .null, .num _ | .null, .str _ | .null, .arr _ | .null, .obj _
  | .bool _, .null | .bool _, .num _ | .bool _, .str _ | .bool _, .arr _ | .bool _, .obj _
  | .num _, .null | .num _, .bool _ | .num _, .str _ | .num _, .arr _ | .num _, .obj _
  | .str _, .null | .str _, .bool _ | .str _, .num _ | .str _, .arr _ | .str _, .obj _
  | .arr _, .null | .arr _, .bool _ | .arr _, .num _ | .arr _, .str _ | .arr _, .obj _
  | .obj _, .null | .obj _, .bool _ | .obj _, .num _ | .obj _, .str _ | .obj _, .arr _ =>
      isFalse (by intro h; cases h)

def Value.decEqList : (a b : List Value) → Decidable (a = b)
  | [], [] => isTrue rfl
  | [], _ :: _ => isFalse (by intro h; cases h)
  | _ :: _, [] => isFalse (by intro h; cases h)
  | x :: xs, y :: ys =>
      match Value.decEq x y, Value.decEqList xs ys with
      | isTrue h1, isTrue h2 => isTrue (by rw [h1, h2])
      | isFalse h1, _ => isFalse (fun hc => h1 (List.cons.inj hc).1)
      | _, isFalse h2 => isFalse (fun hc => h2 (List.cons.inj hc).2)

def Value.decEqFields : (a b : List (String × Value)) → Decidable (a = b)
  | [], [] => isTrue rfl
  | [], _ :: _ => isFalse (by intro h; cases h)
  | _ :: _, [] => isFalse (by intro h; cases h)
  | (k1, v1) :: xs, (k2, v2) :: ys =>
      if hk : k1 = k2 then
        match Value.decEq v1 v2, Value.decEqFields xs ys with
        | isTrue hv, isTrue ht => isTrue (by rw [hk, hv, ht])
        | isFalse hv, _ =>
            isFalse (fun hc => hv (congrArg Prod.snd (List.cons.inj hc).1))
        | _, isFalse ht => isFalse (fun hc => ht (List.cons.inj hc).2)
      else isFalse (fun hc => hk (congrArg Prod.fst (List.cons.inj hc).1))

end

instance : DecidableEq Value := Value.decEq

/-- A JS object / stored document: field name to value, first match wins
(JS objects have unique keys; writes below prepend, keeping lookups
faithful). -/
abbrev Doc := List (String × Value)

/-- Field lookup: JS `doc.k`; `none` models `undefined`. -/
def getField (d : Doc) (k : String) : Option Value :=
  (d.find? (fun p => p.1 == k)).map (fun p => p.2)

/-- JS property assignment `doc.k = v` (lookup-level semantics). -/
def setField (k : String) (v : Value) (d : Doc) : Doc :=
  (k, v) :: d

/-- JS spread `{...base, ...changes}`: keys of `changes` win. -/
def mergeDoc (base changes : Doc) : Doc :=
  changes ++ base

/-- JS truthiness of an expression that may be `undefined` (`none`).
`NaN` does not arise (no float model); objects and arrays are always
truthy, exactly as in JS. -/
def truthy : Option Value → Bool
  | none => false
  | some .null => false
  | some (.bool b) => b
  | some (.num n) => n != 0
  | some (.str s) => s != ""
  | some (.arr _) => true
  | some (.obj _) => true

/-- `d.id == id` where `id` is the (string) URL parameter.  JS `==` on a
string and a string is exact comparison; the data model fixes ids as
strings, so the numeric-coercion corner of JS `==` is never exercised. -/
def idEq (d : Doc) (id : String) : Bool :=
  match getField d "id" with
  | some (.str s) => s == id
  | _ => false

/-- `docs.findIndex(d => d.id == id)`, with `none` for `-1`. -/
def findIdxById (docs : List Doc) (id : String) : Option Nat :=
  docs.findIdx? (fun d => idEq d id)

/-- JS `a || b` where `a` may be `undefined` (`none`): `a` when truthy,
else `b`. -/
def jsOr (o : Option Value) (dflt : Value) : Value :=
  match o with
  | some v => if truthy (some v) then v else dflt
  | none => dflt

/-! ## Storage layer (`getFilePath`, `readCollection`, `writeCollection`) -/

/-- The `allowed` list inside `getFilePath`. -/
def allowedCollections : List String :=
  ["users", "ads", "posts", "notifications", "reports"]

/-- Errors any handler can surface from the storage layer. -/
inductive ServerErr where
  /-- `getFilePath` throws `Error('Invalid collection')`. -/
  | invalidCollection
  /-- `JSON.parse` throws a `SyntaxError`, rethrown by `readCollection`
  because its `code` is not `ENOENT`. -/
  | parseError
deriving Repr, DecidableEq

/-- `getFilePath(collection)`: rejects names outside the allowed list
before any I/O; `path.join(dataDir, ...)` is modelled relative to the
data directory. -/
def getFilePath (c : String) : Except ServerErr String :=
  if allowedCollections.contains c then .ok (c ++ ".json")
  else .error .invalidCollection

/-- The collection file at the fs + `JSON.parse` boundary: absent
(`ENOENT`), unparsable text (`JSON.parse` throws), or text parsing to
the JSON value `v` — which need not be an array. -/
inductive StoredFile where
  | missing
  | invalidJson
  | jsonVal (v : Value)
deriving Repr

/-- `readCollection(collection)`: resolves the path (throwing on an
invalid name), returns `[]` on `ENOENT`, rethrows a parse failure, and
otherwise returns whatever `JSON.parse` produced. -/
def readCollection (c : String) (f : StoredFile) : Except ServerErr Value :=
  match getFilePath c with
  | .error e => .error e
  | .ok _ =>
      match f with
      | .missing => .ok (.arr [])
      | .invalidJson => .error .parseError
      | .jsonVal v => .ok v

/-- Spec-side predicate (for the `readAll` claim): the stored content is
a valid encoded document array — a JSON array whose elements are all
objects. -/
def isDocArray : Value → Bool
  | .arr xs => xs.all (fun v => match v with | .obj _ => true | _ => false)
  | _ => false

/-- A filesystem operation performed by the storage layer.  File content
is recorded at the document level; `JSON.stringify` is the external
serialization boundary. -/
inductive FsOp where
  | writeFileOp (path : String) (content : List Doc)
  | renameOp (src dst : String)
deriving Repr, DecidableEq

/-- `writeCollection(collection, data)`: resolves the path, then performs
a single direct `fs.writeFile` of the whole array onto the collection's
own path. -/
def writeCollectionOps (c : String) (data : List Doc) : Except ServerErr (List FsOp) :=
  (getFilePath c).map (fun file => [FsOp.writeFileOp file data])

/-! ## Generic endpoints -/

/-- Result of `POST /:collection` (the happy path after a successful
read; `docs` is the array passed to `writeCollection`). -/
structure InsertRes where
  status : Nat
  newDoc : Doc
  docs : List Doc
deriving Repr

/-- `app.post('/:collection')`: spreads the body, then overwrites `id`
and `createdAt` with generated values, pushes, writes back.  `genId` and
`ts` stand for `generateId()` and `new Date().toISOString()`. -/
def insertEndpoint (docs : List Doc) (body : Doc) (genId ts : String) : InsertRes :=
  let newDoc := mergeDoc body [("id", .str genId), ("createdAt", .str ts)]
  { status := 201, newDoc := newDoc, docs := docs ++ [newDoc] }

/-- `app.get('/:collection/:id')`: `docs.find(d => d.id == id)`; `none`
is the 404 response. -/
def getEndpoint (docs : List Doc) (id : String) : Option Doc :=
  docs.find? (fun d => idEq d id)

/-- One `writeCollection` call recorded in program order. -/
inductive WriteEvent where
  | write (collection : String) (data : List Doc)
deriving Repr, DecidableEq

/-- The collection a write event targets. -/
def WriteEvent.dest : WriteEvent → String
  | .write c _ => c

/-- JS `x.length` for the values the patch intercept can meet: arrays
and strings have `length`; any other (truthy) value gives `undefined`
in JS, rendered `null` here — never exercised, since the like claims
supply arrays. -/
def jsLength : Value → Value
  | .arr xs => .num xs.length
  | .str s => .num s.length
  | _ => .null

/-- The notification message template literal. -/
def likeMessage (collection : String) : String :=
  "تم الإعجاب بـ " ++ (if collection == "posts" then "منشور" else "إعلان")

/-- The notification object pushed by the likers intercept. -/
def likeNotif (collection id : String) (body : Doc) (genId ts : String) : Doc :=
  [("id", .str genId), ("type", .str "like"), ("collection", .str collection),
   ("targetId", .str id), ("likerId", jsOr (getField body "likerId") .null),
   ("createdAt", .str ts), ("message", .str (likeMessage collection))]

/-- Result of `PATCH /:collection/:id`: status, the responded document,
the target and notifications collections afterwards, and the ordered
list of `writeCollection` calls the handler performed. -/
structure PatchRes where
  status : Nat
  doc : Option Doc
  docs : List Doc
  notifications : List Doc
  writes : List WriteEvent
deriving Repr

/-- `app.patch('/:collection/:id')`.  `docs` and `notifications` are the
states `readCollection` returns at the handler's two read points.  In the
likers intercept the handler writes `notifications` first and the target
collection after (source order: `writeCollection('notifications', ...)`
inside the branch, `writeCollection(collection, docs)` after it). -/
def patchEndpoint (collection id : String) (body : Doc) (docs notifications : List Doc)
    (genId ts : String) : PatchRes :=
  match findIdxById docs id with
  | none =>
      { status := 404, doc := none, docs := docs, notifications := notifications,
        writes := [] }
  | some idx =>
      if (collection == "posts" || collection == "ads") && truthy (getField body "likers") then
        let likersVal := (getField body "likers").getD .null
        let d0 := docs.getD idx []
        let d1 := setField "likers" likersVal d0
        let d2 := setField "likesCount" (jsLength likersVal) d1
        let docs' := docs.set idx d2
        let notifications' := notifications ++ [likeNotif collection id body genId ts]
        { status := 200, doc := some d2, docs := docs', notifications := notifications',
          writes := [.write "notifications" notifications', .write collection docs'] }
      else
        let d1 := mergeDoc (docs.getD idx []) body
        let docs' := docs.set idx d1
        { status := 200, doc := some d1, docs := docs', notifications := notifications,
          writes := [.write collection docs'] }

/-! ## Domain endpoints -/

/-- JS `==` between two present field values.  Operands of equal type
compare exactly; the data model types `username` and ids as strings on
both sides, so JS's cross-type coercions are never exercised and
distinct-type operands are unequal here. -/
def looseEqVal : Value → Value → Bool
  | .str a, .str b => a == b
  | .num a, .num b => a == b
  | .bool a, .bool b => a == b
  | .null, .null => true
  | _, _ => false

/-- The `...rest` of `const { username, password, ...rest } = req.body`. -/
def restOf (body : Doc) : Doc :=
  body.filter (fun p => p.1 != "username" && p.1 != "password")

/-- Outcome of `POST /signup`. -/
inductive SignupRes where
  /-- 400 `Missing username or password`. -/
  | missingFields
  /-- 400 `Username already exists`. -/
  | conflict
  /-- 201 with the new user; `users` is the array written back. -/
  | created (user : Doc) (users : List Doc)
deriving Repr

/-- `app.post('/signup')`: falsy-checks `username`/`password`, scans for
`u.username == username` (`undefined` on `u` never equals the checked
truthy username, as in JS), then builds the user: `...rest` first, the
explicit fields after it override. -/
def signupEndpoint (users : List Doc) (body : Doc) (genId ts : String) : SignupRes :=
  let username := getField body "username"
  let password := getField body "password"
  if !truthy username || !truthy password then .missingFields
  else if users.any (fun u =>
      match getField u "username", username with
      | some a, some b => looseEqVal a b
      | _, _ => false) then .conflict
  else
    let user := mergeDoc (restOf body)
      [("username", username.getD .null), ("password", password.getD .null),
       ("id", .str genId), ("createdAt", .str ts),
       ("approvalStatus", .str "pending"), ("isBlocked", .bool false),
       ("followers", .arr []), ("following", .arr [])]
    .created user (users ++ [user])

/-- JS strict equality `v === s` for a string `s`: only a string element
equal to `s` matches; any other type is strictly unequal. -/
def strMatches (s : String) : Value → Bool
  | .str t => t == s
  | _ => false

/-- JS `xs.includes(s)` for a string `s` (strict `===` on elements). -/
def hasStr (xs : List Value) (s : String) : Bool :=
  xs.any (strMatches s)

/-- JS `xs.filter(id => id !== s)`: strict inequality keeps every
element that is not the string `s`. -/
def removeStr (xs : List Value) (s : String) : List Value :=
  xs.filter (fun v => !strMatches s v)

/-- Outcome of `POST /users/toggle-follow`. -/
inductive ToggleRes where
  /-- 404 `User not found`. -/
  | notFound
  /-- 200; the written users array and the two responded documents. -/
  | ok (users : List Doc) (follower : Doc) (following : Doc)
  /-- Out-of-model corner: a truthy non-array `following`/`followers`
  field, on which JS `includes`/`push` would misbehave or throw; the
  User data model types both as arrays, so no claim reaches this. -/
  | nonArrayField
deriving Repr

/-- `app.post('/users/toggle-follow')`.  JS mutates the two user objects
held by reference inside the array; each step below re-reads the array
it writes, which reproduces that aliasing even when the two indexes
coincide.  `users[followerIdx] = follower` / `users[followingIdx] =
following` re-store the same references and are no-ops. -/
def toggleFollow (users : List Doc) (followerId followingId : String) : ToggleRes :=
  match findIdxById users followerId, findIdxById users followingId with
  | some fi, some gi =>
      let u1 := users.set fi (setField "following"
                  (jsOr (getField (users.getD fi []) "following") (.arr []))
                  (users.getD fi []))
      let u2 := u1.set gi (setField "followers"
                  (jsOr (getField (u1.getD gi []) "followers") (.arr []))
                  (u1.getD gi []))
      match getField (u2.getD fi []) "following" with
      | .some (.arr follow) =>
          if !hasStr follow followingId then
            let u3 := u2.set fi (setField "following"
                        (.arr (follow ++ [.str followingId])) (u2.getD fi []))
            match getField (u3.getD gi []) "followers" with
            | .some (.arr fols) =>
                let u4 := u3.set gi (setField "followers"
                            (.arr (fols ++ [.str followerId])) (u3.getD gi []))
                .ok u4 (u4.getD fi []) (u4.getD gi [])
            | _ => .nonArrayField
          else
            let u3 := u2.set fi (setField "following"
                        (.arr (removeStr follow followingId)) (u2.getD fi []))
            match getField (u3.getD gi []) "followers" with
            | .some (.arr fols) =>
                let u4 := u3.set gi (setField "followers"
                            (.arr (removeStr fols followerId)) (u3.getD gi []))
                .ok u4 (u4.getD fi []) (u4.getD gi [])
            | _ => .nonArrayField
      | _ => .nonArrayField
  | _, _ => .notFound

/-! ## Interleaving model for concurrent inserts

Node.js runs each handler's code synchronously between `await`s and may
interleave other requests at every `await`.  An insert request therefore
has exactly two suspension points: the `readCollection` await and the
`writeCollection` await. -/

/-- Progress of one insert request: before its read, holding its read
snapshot, or finished. -/
inductive InsPhase where
  | start
  | readDone (snapshot : List Doc)
  | done
deriving Repr, DecidableEq

/-- A pending `POST /:collection` request. -/
structure InsReq where
  body : Doc
  genId : String
  ts : String
  phase : InsPhase
deriving Repr

/-- One scheduler step of a pending insert against the stored array:
the read step snapshots the store; the write step replaces the stored
array with the snapshot plus the new document (`writeCollection`
rewrites the whole file). -/
def stepInsert (stored : List Doc) (r : InsReq) : List Doc × InsReq :=
  match r.phase with
  | .start => (stored, { r with phase := .readDone stored })
  | .readDone snap =>
      ((insertEndpoint snap r.body r.genId r.ts).docs, { r with phase := .done })
  | .done => (stored, r)

/-- Run a schedule over two concurrent insert requests: `true` steps the
first request, `false` the second. -/
def runTwoInserts (stored : List Doc) (r1 r2 : InsReq) :
    List Bool → List Doc × InsReq × InsReq
  | [] => (stored, r1, r2)
  | b :: rest =>
      if b then
        let p := stepInsert stored r1
        runTwoInserts p.1 p.2 r2 rest
      else
        let p := stepInsert stored r2
        runTwoInserts p.1 r1 p.2 rest

/-! ## Projections used by theorem statements -/

/-- HTTP status of a signup outcome (400 for both error responses, as
the server reports validation and conflict with `res.status(400)`). -/
def signupStatus : SignupRes → Nat
  | .missingFields => 400
  | .conflict => 400
  | .created _ _ => 201

/-- The user document a successful signup responds with. -/
def signupUser : SignupRes → Doc
  | .created u _ => u
  | _ => []

/-- The users array a successful signup writes back. -/
def signupUsers : SignupRes → List Doc
  | .created _ us => us
  | _ => []

/-- The users array a successful toggle writes back. -/
def toggleUsers : ToggleRes → List Doc
  | .ok us _ _ => us
  | _ => []

/-- Whether a toggle succeeded. -/
def toggleOk : ToggleRes → Bool
  | .ok _ _ _ => true
  | _ => false

/-- The `following` list of a user document (empty for a missing or
non-array field). -/
def followingOf (d : Doc) : List Value :=
  match getField d "following" with
  | some (.arr xs) => xs
  | _ => []

/-- The `followers` list of a user document. -/
def followersOf (d : Doc) : List Value :=
  match getField d "followers" with
  | some (.arr xs) => xs
  | _ => []

/-- A user document after the toggle handler touched list field `k`:
first the `|| []` normalization wrote `old`, then the branch wrote
`new`. -/
def toggledDoc (k : String) (old new : List Value) (d : Doc) : Doc :=
  setField k (.arr new) (setField k (.arr old) d)

/-- The users array a toggle writes: the two normalization assignments
followed by the two branch assignments, at the follower index `fi` and
the following index `gi`. -/
def toggleResult (users : List Doc) (fi gi : Nat)
    (follow fols newFollow newFols : List Value) : List Doc :=
  (((users.set fi (setField "following" (.arr follow) (users.getD fi []))).set gi
      (setField "followers" (.arr fols) (users.getD gi []))).set fi
      (toggledDoc "following" follow newFollow (users.getD fi []))).set gi
      (toggledDoc "followers" fols newFols (users.getD gi []))

/-! ## Field-lookup lemmas -/

theorem getField_setField_self (d : Doc) (k : String) (v : Value) :
    getField (setField k v d) k = some v := by
  simp [getField, setField]

theorem getField_setField_ne (d : Doc) (k k' : String) (v : Value) (h : k' ≠ k) :
    getField (setField k v d) k' = getField d k' := by
  simp only [getField, setField, List.find?]
  rw [show ((k, v).1 == k') = false from beq_eq_false_iff_ne.mpr (Ne.symm h)]

theorem getField_mergeDoc (base ch : Doc) (k : String) :
    getField (mergeDoc base ch) k = (getField ch k).or (getField base k) := by
  simp only [getField, mergeDoc, List.find?_append]
  cases ch.find? (fun p => p.1 == k) <;> simp [Option.or]

theorem findIdxById_lt_length {docs : List Doc} {id : String} {idx : Nat}
    (h : findIdxById docs id = some idx) : idx < docs.length := by
  rw [findIdxById, List.findIdx?_eq_some_iff_getElem] at h
  exact h.1

/-! ## C7: insert followed by get -/

/-- C7: for every collection state and body, when the generated id is not
already carried by a stored document, inserting and then getting the
returned id yields exactly the new document, whose fields are the
caller-supplied fields with `id` and `createdAt` overwritten by the
generated values. -/
theorem insert_then_get (docs : List Doc) (body : Doc) (genId ts : String)
    (hfresh : docs.all (fun d => !idEq d genId) = true) :
    (insertEndpoint docs body genId ts).status = 201 ∧
    getEndpoint (insertEndpoint docs body genId ts).docs genId
      = some (insertEndpoint docs body genId ts).newDoc ∧
    (∀ k, getField (insertEndpoint docs body genId ts).newDoc k =
      if k = "id" then some (.str genId)
      else if k = "createdAt" then some (.str ts)
      else getField body k) := by
  refine ⟨rfl, ?_, ?_⟩
  · have hnone : docs.find? (fun d => idEq d genId) = none := by
      rw [List.find?_eq_none]
      intro d hd
      have := (List.all_eq_true.mp hfresh) d hd
      simp only [Bool.not_eq_true'] at this
      simp [this]
    have hid : idEq (insertEndpoint docs body genId ts).newDoc genId = true := by
      simp [insertEndpoint, idEq, mergeDoc, getField, List.find?]
    simp [getEndpoint, insertEndpoint, List.find?_append, hnone, Option.or] at hid ⊢
    simp [hid]
  · intro k
    by_cases hk : k = "id"
    · subst hk
      simp [insertEndpoint, mergeDoc, getField, List.find?]
    · by_cases hc : k = "createdAt"
      · subst hc
        simp [insertEndpoint, mergeDoc, getField, List.find?]
      · have h1 : (("id", Value.str genId).1 == k) = false :=
          beq_eq_false_iff_ne.mpr (fun h => hk (h.symm))
        have h2 : (("createdAt", Value.str ts).1 == k) = false :=
          beq_eq_false_iff_ne.mpr (fun h => hc (h.symm))
        simp [insertEndpoint, mergeDoc, getField, List.find?, h1, h2, hk, hc]

/-- Witness for C7 at a concrete store, body and generated values. -/
theorem insert_then_get_witness :
    ([[("id", Value.str "old")]].all (fun d => !idEq d "new1") = true) ∧
    getEndpoint (insertEndpoint [[("id", Value.str "old")]]
        [("title", Value.str "hi"), ("id", Value.str "fake")] "new1" "t0").docs "new1"
      = some (insertEndpoint [[("id", Value.str "old")]]
        [("title", Value.str "hi"), ("id", Value.str "fake")] "new1" "t0").newDoc :=
  ⟨by decide,
   (insert_then_get [[("id", Value.str "old")]]
      [("title", Value.str "hi"), ("id", Value.str "fake")] "new1" "t0" (by decide)).2.1⟩

/-! ## C6: patch outside the likers intercept -/

/-- C6: patch responds 404 when no document carries the id; otherwise,
outside the posts/ads likers intercept, it shallow-merges the body onto
the stored document — a field named in the body wins, every other field
keeps the stored value — both in the response and in the written
collection. -/
theorem patch_regular (collection id : String) (body : Doc) (docs notifications : List Doc)
    (genId ts : String)
    (hni : ((collection == "posts" || collection == "ads")
            && truthy (getField body "likers")) = false) :
    (findIdxById docs id = none →
      (patchEndpoint collection id body docs notifications genId ts).status = 404) ∧
    (∀ idx, findIdxById docs id = some idx →
      (patchEndpoint collection id body docs notifications genId ts).status = 200 ∧
      (∀ k, getField
          (((patchEndpoint collection id body docs notifications genId ts).doc).getD []) k
          = (getField body k).or (getField (docs.getD idx []) k)) ∧
      (∀ k, getField
          ((patchEndpoint collection id body docs notifications genId ts).docs.getD idx []) k
          = (getField body k).or (getField (docs.getD idx []) k))) := by
  constructor
  · intro h
    simp [patchEndpoint, h]
  · intro idx h
    have hlt : idx < docs.length := findIdxById_lt_length h
    refine ⟨?_, ?_, ?_⟩ <;>
      simp [patchEndpoint, h, hni, hlt, getField_mergeDoc]

/-- Witness for C6: patching `{a: 1}` onto `{a: 0, b: 2}` yields
`{a: 1, b: 2}`. -/
theorem patch_regular_witness :
    (patchEndpoint "users" "d1" [("a", Value.num 1)]
        [[("id", Value.str "d1"), ("a", Value.num 0), ("b", Value.num 2)]] [] "g" "t").status
      = 200 ∧
    getField ((patchEndpoint "users" "d1" [("a", Value.num 1)]
        [[("id", Value.str "d1"), ("a", Value.num 0), ("b", Value.num 2)]] [] "g" "t").docs.getD
        0 []) "a" = some (Value.num 1) ∧
    getField ((patchEndpoint "users" "d1" [("a", Value.num 1)]
        [[("id", Value.str "d1"), ("a", Value.num 0), ("b", Value.num 2)]] [] "g" "t").docs.getD
        0 []) "b" = some (Value.num 2) := by
  have h := (patch_regular "users" "d1" [("a", Value.num 1)]
      [[("id", Value.str "d1"), ("a", Value.num 0), ("b", Value.num 2)]] [] "g" "t"
      (by decide)).2 0 (by decide)
  refine ⟨h.1, ?_, ?_⟩
  · rw [h.2.2 "a"]; decide
  · rw [h.2.2 "b"]; decide

/-! ## The likers intercept: shape lemma and claims C2, C10, C3 -/

/-- Shape of the patch result when the likers intercept fires (shared by
the like-update, frame and write-order theorems). -/
theorem patch_intercept_eq (collection id : String) (body : Doc) (docs notifications : List Doc)
    (genId ts : String) (idx : Nat) (l : List Value)
    (hidx : findIdxById docs id = some idx)
    (hcoll : (collection == "posts" || collection == "ads") = true)
    (hlik : getField body "likers" = some (.arr l)) :
    patchEndpoint collection id body docs notifications genId ts =
      { status := 200,
        doc := some (setField "likesCount" (.num l.length)
                  (setField "likers" (.arr l) (docs.getD idx []))),
        docs := docs.set idx (setField "likesCount" (.num l.length)
                  (setField "likers" (.arr l) (docs.getD idx []))),
        notifications := notifications ++ [likeNotif collection id body genId ts],
        writes :=
          [.write "notifications" (notifications ++ [likeNotif collection id body genId ts]),
           .write collection (docs.set idx (setField "likesCount" (.num l.length)
                  (setField "likers" (.arr l) (docs.getD idx []))))] } := by
  simp [patchEndpoint, hidx, hcoll, hlik, truthy, jsLength]

/-- C2: a patch on a present post or ad whose body carries
`likers = [u1, ..., un]` stores `likers` as the supplied list, stores
`likesCount = n`, and appends exactly one notification of type `like`
whose `targetId` is the patched id, leaving earlier notifications in
place. -/
theorem patch_like_update (collection id : String) (body : Doc) (docs notifications : List Doc)
    (genId ts : String) (idx : Nat) (l : List Value)
    (hidx : findIdxById docs id = some idx)
    (hcoll : (collection == "posts" || collection == "ads") = true)
    (hlik : getField body "likers" = some (.arr l)) :
    (patchEndpoint collection id body docs notifications genId ts).status = 200 ∧
    getField ((patchEndpoint collection id body docs notifications genId ts).docs.getD idx [])
      "likers" = some (.arr l) ∧
    getField ((patchEndpoint collection id body docs notifications genId ts).docs.getD idx [])
      "likesCount" = some (.num l.length) ∧
    (patchEndpoint collection id body docs notifications genId ts).notifications.length
      = notifications.length + 1 ∧
    (patchEndpoint collection id body docs notifications genId ts).notifications.take
      notifications.length = notifications ∧
    getField ((patchEndpoint collection id body docs notifications genId ts).notifications.getD
      notifications.length []) "type" = some (.str "like") ∧
    getField ((patchEndpoint collection id body docs notifications genId ts).notifications.getD
      notifications.length []) "targetId" = some (.str id) := by
  have hlt : idx < docs.length := findIdxById_lt_length hidx
  rw [patch_intercept_eq collection id body docs notifications genId ts idx l hidx hcoll hlik]
  refine ⟨rfl, ?_, ?_, ?_, ?_, ?_, ?_⟩
  · simp only [List.getD_eq_getElem?_getD, List.getElem?_set_self hlt, Option.getD_some]
    rw [getField_setField_ne _ _ _ _ (by decide), getField_setField_self]
  · simp only [List.getD_eq_getElem?_getD, List.getElem?_set_self hlt, Option.getD_some]
    rw [getField_setField_self]
  · simp
  · simp
  · simp [likeNotif, getField, List.find?]
  · simp [likeNotif, getField, List.find?]

/-- Witness for C2: liking post `p1` with three likers. -/
theorem patch_like_update_witness :
    getField ((patchEndpoint "posts" "p1"
        [("likers", Value.arr [Value.str "u1", Value.str "u2", Value.str "u3"])]
        [[("id", Value.str "p1"), ("likesCount", Value.num 0)]] [] "n1" "t1").docs.getD 0 [])
      "likesCount" = some (Value.num 3) ∧
    getField ((patchEndpoint "posts" "p1"
        [("likers", Value.arr [Value.str "u1", Value.str "u2", Value.str "u3"])]
        [[("id", Value.str "p1"), ("likesCount", Value.num 0)]] [] "n1" "t1").notifications.getD
      0 []) "targetId" = some (Value.str "p1") := by
  have h := patch_like_update "posts" "p1"
      [("likers", Value.arr [Value.str "u1", Value.str "u2", Value.str "u3"])]
      [[("id", Value.str "p1"), ("likesCount", Value.num 0)]] [] "n1" "t1" 0
      [Value.str "u1", Value.str "u2", Value.str "u3"] (by decide) (by decide) (by decide)
  exact ⟨h.2.2.1, h.2.2.2.2.2.2⟩

/-- C10: when the intercept fires, no body field other than `likers` is
applied — every field of the target document other than `likers` and
`likesCount` keeps its stored value — and every other document of the
collection is unchanged. -/
theorem patch_like_frame (collection id : String) (body : Doc) (docs notifications : List Doc)
    (genId ts : String) (idx : Nat) (l : List Value)
    (hidx : findIdxById docs id = some idx)
    (hcoll : (collection == "posts" || collection == "ads") = true)
    (hlik : getField body "likers" = some (.arr l)) :
    (∀ k, k ≠ "likers" → k ≠ "likesCount" →
      getField ((patchEndpoint collection id body docs notifications genId ts).docs.getD idx []) k
        = getField (docs.getD idx []) k) ∧
    (∀ j, j ≠ idx →
      (patchEndpoint collection id body docs notifications genId ts).docs[j]? = docs[j]?) := by
  have hlt : idx < docs.length := findIdxById_lt_length hidx
  rw [patch_intercept_eq collection id body docs notifications genId ts idx l hidx hcoll hlik]
  constructor
  · intro k hk1 hk2
    simp only [List.getD_eq_getElem?_getD, List.getElem?_set_self hlt, Option.getD_some]
    rw [getField_setField_ne _ _ _ _ hk2, getField_setField_ne _ _ _ _ hk1]
  · intro j hj
    exact List.getElem?_set_ne (fun h => hj h.symm)

/-- Witness for C10: a body field `title` is not applied by the
intercept and the other stored document is untouched. -/
theorem patch_like_frame_witness :
    getField ((patchEndpoint "ads" "a1"
        [("likers", Value.arr [Value.str "u1"]), ("title", Value.str "evil")]
        [[("id", Value.str "a1"), ("title", Value.str "ad")], [("id", Value.str "a2")]]
        [] "n1" "t1").docs.getD 0 []) "title" = some (Value.str "ad") ∧
    (patchEndpoint "ads" "a1"
        [("likers", Value.arr [Value.str "u1"]), ("title", Value.str "evil")]
        [[("id", Value.str "a1"), ("title", Value.str "ad")], [("id", Value.str "a2")]]
        [] "n1" "t1").docs[1]? = some [("id", Value.str "a2")] := by
  have h := patch_like_frame "ads" "a1"
      [("likers", Value.arr [Value.str "u1"]), ("title", Value.str "evil")]
      [[("id", Value.str "a1"), ("title", Value.str "ad")], [("id", Value.str "a2")]]
      [] "n1" "t1" 0 [Value.str "u1"] (by decide) (by decide) (by decide)
  constructor
  · rw [h.1 "title" (by decide) (by decide)]; decide
  · rw [h.2 1 (by decide)]; decide

/-- Counterexample to C3 as stated: at a concrete like-patch the first
`writeCollection` call targets `notifications`, not the patched
collection — the claimed target-first order is false. -/
theorem patch_write_order_counterexample :
    ((patchEndpoint "posts" "p1" [("likers", Value.arr [Value.str "u1"])]
        [[("id", Value.str "p1")]] [] "n1" "t1").writes.map WriteEvent.dest
      ≠ ["posts", "notifications"]) ∧
    ((patchEndpoint "posts" "p1" [("likers", Value.arr [Value.str "u1"])]
        [[("id", Value.str "p1")]] [] "n1" "t1").writes.map WriteEvent.dest
      = ["notifications", "posts"]) := by
  decide

/-- C3 amended: in the like update the handler writes `notifications`
first and the target collection second, so a crash between the two
writes leaves the notification durably recorded while the like itself is
missing — the reverse of the claimed order. -/
theorem patch_like_write_order (collection id : String) (body : Doc)
    (docs notifications : List Doc) (genId ts : String) (idx : Nat) (l : List Value)
    (hidx : findIdxById docs id = some idx)
    (hcoll : (collection == "posts" || collection == "ads") = true)
    (hlik : getField body "likers" = some (.arr l)) :
    (patchEndpoint collection id body docs notifications genId ts).writes
      = [WriteEvent.write "notifications"
           (patchEndpoint collection id body docs notifications genId ts).notifications,
         WriteEvent.write collection
           (patchEndpoint collection id body docs notifications genId ts).docs] ∧
    (patchEndpoint collection id body docs notifications genId ts).writes.map WriteEvent.dest
      = ["notifications", collection] := by
  rw [patch_intercept_eq collection id body docs notifications genId ts idx l hidx hcoll hlik]
  exact ⟨rfl, by simp [WriteEvent.dest]⟩

/-- Witness for the amended C3 at a concrete like-patch. -/
theorem patch_like_write_order_witness :
    (patchEndpoint "posts" "p2" [("likers", Value.arr [Value.str "u9"])]
        [[("id", Value.str "p2")]] [] "n2" "t2").writes.map WriteEvent.dest
      = ["notifications", "posts"] :=
  (patch_like_write_order "posts" "p2" [("likers", Value.arr [Value.str "u9"])]
      [[("id", Value.str "p2")]] [] "n2" "t2" 0 [Value.str "u9"]
      (by decide) (by decide) (by decide)).2

/-! ## C1: concurrent inserts -/

/-- C1 fails on the code: the handlers take no per-collection lock, so
the schedule read₁, read₂, write₁, write₂ of two concurrent inserts with
distinct bodies into the empty collection is a legal Node interleaving
(each step runs between `await`s); both requests complete, yet only one
document — the second — is durably stored, not two. -/
theorem concurrent_inserts_lost_update :
    ((runTwoInserts [] ⟨[("text", Value.str "a")], "id1", "t1", .start⟩
        ⟨[("text", Value.str "b")], "id2", "t2", .start⟩
        [true, false, true, false]).2.1.phase = InsPhase.done) ∧
    ((runTwoInserts [] ⟨[("text", Value.str "a")], "id1", "t1", .start⟩
        ⟨[("text", Value.str "b")], "id2", "t2", .start⟩
        [true, false, true, false]).2.2.phase = InsPhase.done) ∧
    ((runTwoInserts [] ⟨[("text", Value.str "a")], "id1", "t1", .start⟩
        ⟨[("text", Value.str "b")], "id2", "t2", .start⟩
        [true, false, true, false]).1.length = 1) ∧
    ¬((runTwoInserts [] ⟨[("text", Value.str "a")], "id1", "t1", .start⟩
        ⟨[("text", Value.str "b")], "id2", "t2", .start⟩
        [true, false, true, false]).1.length = 2) ∧
    ((runTwoInserts [] ⟨[("text", Value.str "a")], "id1", "t1", .start⟩
        ⟨[("text", Value.str "b")], "id2", "t2", .start⟩
        [true, false, true, false]).1.map (fun d => getField d "id")
      = [some (Value.str "id2")]) := by
  decide

/-! ## C8: readCollection -/

/-- Counterexample to C8 as stated: stored content `42` is valid JSON
but not an encoded document array, yet `readCollection` returns it as a
success — no corruption error is raised. -/
theorem readCollection_nonarray_counterexample :
    readCollection "users" (.jsonVal (.num 42)) = .ok (.num 42) ∧
    isDocArray (.num 42) = false :=
  ⟨rfl, rfl⟩

/-- C8 amended: for a valid collection name, a never-written collection
reads as the empty array (not an error) and unparsable content fails
with the rethrown parse error; however content that is valid JSON but
not a document array is returned as-is, not rejected. -/
theorem readCollection_spec (c : String) (h : allowedCollections.contains c = true) :
    readCollection c .missing = .ok (.arr []) ∧
    readCollection c .invalidJson = .error .parseError ∧
    (∀ v : Value, readCollection c (.jsonVal v) = .ok v) := by
  have hmem : c ∈ allowedCollections := by simpa using h
  refine ⟨?_, ?_, fun v => ?_⟩ <;> simp [readCollection, getFilePath, hmem]

/-- Witness for the amended C8 on the `users` collection. -/
theorem readCollection_spec_witness :
    readCollection "users" .missing = .ok (.arr []) ∧
    readCollection "users" .invalidJson = .error .parseError :=
  ⟨(readCollection_spec "users" (by decide)).1,
   (readCollection_spec "users" (by decide)).2.1⟩

/-! ## C9: writeCollection -/

/-- C9 fails on the code: `writeCollection` performs a single direct
`fs.writeFile` onto the collection's own path — an in-place overwrite
with no temporary file and no rename, evaluated here at a concrete
write. -/
theorem writeCollection_inplace_overwrite :
    writeCollectionOps "users" [[("id", Value.str "u1")]]
      = .ok [FsOp.writeFileOp "users.json" [[("id", Value.str "u1")]]] ∧
    ([FsOp.writeFileOp "users.json" [[("id", Value.str "u1")]]].all
      (fun op => match op with
        | .renameOp _ _ => false
        | .writeFileOp p _ => p == "users.json") = true) :=
  ⟨rfl, rfl⟩

/-! ## C5: signup -/

/-- C5: signup rejects a missing (falsy) username or password with the
validation error, rejects a username already stored — compared
case-sensitively, string to string — with the 400 conflict, and on
success responds 201 with a user whose `approvalStatus` is `pending`,
`isBlocked` is `false`, and `followers`/`following` are empty, appending
that user to the collection. -/
theorem signup_spec (users : List Doc) (body : Doc) (genId ts : String) (uname : String) :
    ((truthy (getField body "username") = false ∨ truthy (getField body "password") = false) →
      signupEndpoint users body genId ts = .missingFields ∧
      signupStatus (signupEndpoint users body genId ts) = 400) ∧
    (getField body "username" = some (.str uname) → uname ≠ "" →
     truthy (getField body "password") = true →
     (∃ u ∈ users, getField u "username" = some (.str uname)) →
      signupEndpoint users body genId ts = .conflict ∧
      signupStatus (signupEndpoint users body genId ts) = 400) ∧
    (getField body "username" = some (.str uname) → uname ≠ "" →
     truthy (getField body "password") = true →
     (∀ u ∈ users, getField u "username" ≠ some (.str uname)) →
      signupStatus (signupEndpoint users body genId ts) = 201 ∧
      getField (signupUser (signupEndpoint users body genId ts)) "approvalStatus"
        = some (.str "pending") ∧
      getField (signupUser (signupEndpoint users body genId ts)) "isBlocked"
        = some (.bool false) ∧
      getField (signupUser (signupEndpoint users body genId ts)) "followers"
        = some (.arr []) ∧
      getField (signupUser (signupEndpoint users body genId ts)) "following"
        = some (.arr []) ∧
      signupUsers (signupEndpoint users body genId ts)
        = users ++ [signupUser (signupEndpoint users body genId ts)]) := by
  refine ⟨?_, ?_, ?_⟩
  · rintro (h | h) <;> simp [signupEndpoint, h, signupStatus]
  · intro hu hne hp hexists
    have htu : truthy (getField body "username") = true := by
      rw [hu]; simpa [truthy] using hne
    have hany : (users.any (fun u =>
        match getField u "username", getField body "username" with
        | some a, some b => looseEqVal a b
        | _, _ => false)) = true := by
      rw [List.any_eq_true]
      obtain ⟨u, hmem, heq⟩ := hexists
      exact ⟨u, hmem, by rw [heq, hu]; simp [looseEqVal]⟩
    simp [signupEndpoint, htu, hp, hany, signupStatus]
  · intro hu hne hp hall
    have htu : truthy (getField body "username") = true := by
      rw [hu]; simpa [truthy] using hne
    have hany : (users.any (fun u =>
        match getField u "username", getField body "username" with
        | some a, some b => looseEqVal a b
        | _, _ => false)) = false := by
      rw [List.any_eq_false]
      intro u hmem
      have hune := hall u hmem
      rw [hu]
      match hm : getField u "username" with
      | none => simp
      | some a =>
        cases a <;> simp [looseEqVal]
        rename_i s
        intro hs
        exact hune (by rw [hm, hs])
    simp only [signupEndpoint, htu, hp, hany, Bool.not_true, Bool.false_or, Bool.or_self,
      if_neg, ite_false, Bool.false_eq_true]
    refine ⟨rfl, ?_, ?_, ?_, ?_, rfl⟩ <;> rfl

/-- Witness for C5: the spec's scenario — first signup of `a` is created
pending, a second signup of `a` conflicts, a missing password is
rejected. -/
theorem signup_spec_witness :
    signupStatus (signupEndpoint [] [("username", Value.str "a"), ("password", Value.str "p")]
      "g1" "t1") = 201 ∧
    getField (signupUser (signupEndpoint []
      [("username", Value.str "a"), ("password", Value.str "p")] "g1" "t1")) "approvalStatus"
      = some (Value.str "pending") ∧
    signupEndpoint [[("username", Value.str "a"), ("id", Value.str "u1")]]
      [("username", Value.str "a"), ("password", Value.str "q")] "g2" "t2" = .conflict ∧
    signupEndpoint [] [("username", Value.str "a")] "g3" "t3" = .missingFields := by
  have h1 := (signup_spec [] [("username", Value.str "a"), ("password", Value.str "p")]
      "g1" "t1" "a").2.2 (by decide) (by decide) (by decide) (by decide)
  have h2 := (signup_spec [[("username", Value.str "a"), ("id", Value.str "u1")]]
      [("username", Value.str "a"), ("password", Value.str "q")] "g2" "t2" "a").2.1
      (by decide) (by decide) (by decide) ⟨[("username", Value.str "a"), ("id", Value.str "u1")],
        by decide, by decide⟩
  have h3 := (signup_spec [] [("username", Value.str "a")] "g3" "t3" "a").1
      (Or.inr (by decide))
  exact ⟨h1.1, h1.2.1, h2.1, h3.1⟩

/-! ## C4: toggle-follow -/

theorem hasStr_append (xs ys : List Value) (s : String) :
    hasStr (xs ++ ys) s = (hasStr xs s || hasStr ys s) := by
  simp [hasStr, List.any_append]

theorem hasStr_singleton (t s : String) :
    hasStr [.str t] s = (t == s) := by
  simp [hasStr, strMatches]

theorem hasStr_removeStr_self (xs : List Value) (s : String) :
    hasStr (removeStr xs s) s = false := by
  simp only [hasStr, removeStr, List.any_filter]
  rw [List.any_eq_false]
  intro v _
  cases strMatches s v <;> simp

theorem hasStr_removeStr_ne (xs : List Value) (s x : String) (h : x ≠ s) :
    hasStr (removeStr xs s) x = hasStr xs x := by
  simp only [hasStr, removeStr, List.any_filter]
  have hfun : (fun v => !strMatches s v && strMatches x v) = strMatches x := by
    funext v
    cases v with
    | str t =>
      by_cases htx : t = x
      · subst htx
        have hts : (t == s) = false := beq_eq_false_iff_ne.mpr h
        simp [strMatches, hts]
      · have htx' : (t == x) = false := beq_eq_false_iff_ne.mpr htx
        simp [strMatches, htx']
    | null => simp [strMatches]
    | bool b => simp [strMatches]
    | num n => simp [strMatches]
    | arr a => simp [strMatches]
    | obj o => simp [strMatches]
  rw [hfun]

theorem removeStr_eq_self (xs : List Value) (s : String) (h : hasStr xs s = false) :
    removeStr xs s = xs := by
  rw [removeStr, List.filter_eq_self]
  intro v hv
  rw [hasStr, List.any_eq_false] at h
  simp [h v hv]

theorem removeStr_append (xs ys : List Value) (s : String) :
    removeStr (xs ++ ys) s = removeStr xs s ++ removeStr ys s := by
  simp [removeStr, List.filter_append]

theorem removeStr_singleton_self (s : String) :
    removeStr [.str s] s = [] := by
  simp [removeStr, List.filter, strMatches]

/-- Replacing one document by another with the same `id`-match behavior
leaves `findIndex(d => d.id == x)` unchanged. -/
theorem findIdxById_set_preserve {docs : List Doc} {x : String} {i : Nat} {d : Doc}
    (h : idEq d x = idEq (docs.getD i []) x) :
    findIdxById (docs.set i d) x = findIdxById docs x := by
  induction docs generalizing i with
  | nil => rfl
  | cons hd tl ih =>
    cases i with
    | zero =>
      simp only [List.getD_eq_getElem?_getD, List.getElem?_cons_zero, Option.getD_some] at h
      simp [findIdxById, List.set_cons_zero, List.findIdx?_cons, h]
    | succ i =>
      simp only [List.getD_eq_getElem?_getD, List.getElem?_cons_succ] at h
      have := ih (i := i) (by simpa [List.getD_eq_getElem?_getD] using h)
      simp only [findIdxById] at this
      simp [findIdxById, List.set_cons_succ, List.findIdx?_cons, this]

theorem jsOr_arr (xs : List Value) (dflt : Value) :
    jsOr (some (.arr xs)) dflt = .arr xs := rfl

theorem idEq_setField (d : Doc) (x k : String) (v : Value) (h : "id" ≠ k) :
    idEq (setField k v d) x = idEq d x := by
  rw [idEq, idEq, getField_setField_ne d k "id" v h]

theorem followingOf_set_self (xs : List Value) (d : Doc) :
    followingOf (setField "following" (.arr xs) d) = xs := by
  rw [followingOf, getField_setField_self]

theorem followersOf_set_self (xs : List Value) (d : Doc) :
    followersOf (setField "followers" (.arr xs) d) = xs := by
  rw [followersOf, getField_setField_self]

/-- Shape of a successful toggle when the two users sit at distinct
indexes and their `following`/`followers` fields normalize to arrays:
the branch on `follower.following.includes(followingId)` either appends
to both lists or filters both lists, and only those two fields of the
two documents are reassigned. -/
theorem toggle_eq (users : List Doc) (a b : String) (fi gi : Nat) (follow fols : List Value)
    (hfi : findIdxById users a = some fi) (hgi : findIdxById users b = some gi)
    (hne : fi ≠ gi)
    (hfl : jsOr (getField (users.getD fi []) "following") (.arr []) = .arr follow)
    (hfo : jsOr (getField (users.getD gi []) "followers") (.arr []) = .arr fols) :
    toggleFollow users a b =
      ToggleRes.ok
        (toggleResult users fi gi follow fols
          (if hasStr follow b then removeStr follow b else follow ++ [.str b])
          (if hasStr follow b then removeStr fols a else fols ++ [.str a]))
        (toggledDoc "following" follow
          (if hasStr follow b then removeStr follow b else follow ++ [.str b])
          (users.getD fi []))
        (toggledDoc "followers" fols
          (if hasStr follow b then removeStr fols a else fols ++ [.str a])
          (users.getD gi [])) := by
  simp only [toggleResult, toggledDoc]
  have hlt_fi : fi < users.length := findIdxById_lt_length hfi
  have hlt_gi : gi < users.length := findIdxById_lt_length hgi
  have e1 : (users.set fi (setField "following" (.arr follow) (users.getD fi []))).getD gi []
      = users.getD gi [] := by
    simp [List.getD_eq_getElem?_getD, List.getElem?_set_ne hne]
  have e2 : ((users.set fi (setField "following" (.arr follow) (users.getD fi []))).set gi
        (setField "followers" (.arr fols) (users.getD gi []))).getD fi []
      = setField "following" (.arr follow) (users.getD fi []) := by
    simp [List.getD_eq_getElem?_getD, List.getElem?_set_ne (Ne.symm hne),
      List.getElem?_set_self hlt_fi]
  simp only [toggleFollow, hfi, hgi, hfl, e1, hfo, e2, getField_setField_self]
  by_cases hmem : hasStr follow b
  · simp only [hmem, Bool.not_true, Bool.false_eq_true, if_false, if_true]
    have e3 : ((((users.set fi (setField "following" (.arr follow) (users.getD fi []))).set gi
          (setField "followers" (.arr fols) (users.getD gi [])))).set fi
          (setField "following" (.arr (removeStr follow b))
            (setField "following" (.arr follow) (users.getD fi [])))).getD gi []
        = setField "followers" (.arr fols) (users.getD gi []) := by
      simp [List.getD_eq_getElem?_getD, List.getElem?_set_ne hne,
        List.getElem?_set_self, hlt_gi]
    simp only [e3, getField_setField_self]
    have e4 : (((((users.set fi (setField "following" (.arr follow) (users.getD fi []))).set gi
          (setField "followers" (.arr fols) (users.getD gi [])))).set fi
          (setField "following" (.arr (removeStr follow b))
            (setField "following" (.arr follow) (users.getD fi [])))).set gi
          (setField "followers" (.arr (removeStr fols a))
            (setField "followers" (.arr fols) (users.getD gi [])))).getD fi []
        = setField "following" (.arr (removeStr follow b))
            (setField "following" (.arr follow) (users.getD fi [])) := by
      simp [List.getD_eq_getElem?_getD, List.getElem?_set_ne (Ne.symm hne),
        List.getElem?_set_self, hlt_fi]
    have e5 : (((((users.set fi (setField "following" (.arr follow) (users.getD fi []))).set gi
          (setField "followers" (.arr fols) (users.getD gi [])))).set fi
          (setField "following" (.arr (removeStr follow b))
            (setField "following" (.arr follow) (users.getD fi [])))).set gi
          (setField "followers" (.arr (removeStr fols a))
            (setField "followers" (.arr fols) (users.getD gi [])))).getD gi []
        = setField "followers" (.arr (removeStr fols a))
            (setField "followers" (.arr fols) (users.getD gi [])) := by
      simp [List.getD_eq_getElem?_getD, List.getElem?_set_self, hlt_gi]
    rw [e4, e5]
  · simp only [hmem, Bool.not_false, Bool.false_eq_true, if_false, if_true]
    have e3 : ((((users.set fi (setField "following" (.arr follow) (users.getD fi []))).set gi
          (setField "followers" (.arr fols) (users.getD gi [])))).set fi
          (setField "following" (.arr (follow ++ [.str b]))
            (setField "following" (.arr follow) (users.getD fi [])))).getD gi []
        = setField "followers" (.arr fols) (users.getD gi []) := by
      simp [List.getD_eq_getElem?_getD, List.getElem?_set_ne hne,
        List.getElem?_set_self, hlt_gi]
    simp only [e3, getField_setField_self]
    have e4 : (((((users.set fi (setField "following" (.arr follow) (users.getD fi []))).set gi
          (setField "followers" (.arr fols) (users.getD gi [])))).set fi
          (setField "following" (.arr (follow ++ [.str b]))
            (setField "following" (.arr follow) (users.getD fi [])))).set gi
          (setField "followers" (.arr (fols ++ [.str a]))
            (setField "followers" (.arr fols) (users.getD gi [])))).getD fi []
        = setField "following" (.arr (follow ++ [.str b]))
            (setField "following" (.arr follow) (users.getD fi [])) := by
      simp [List.getD_eq_getElem?_getD, List.getElem?_set_ne (Ne.symm hne),
        List.getElem?_set_self, hlt_fi]
    have e5 : (((((users.set fi (setField "following" (.arr follow) (users.getD fi []))).set gi
          (setField "followers" (.arr fols) (users.getD gi [])))).set fi
          (setField "following" (.arr (follow ++ [.str b]))
            (setField "following" (.arr follow) (users.getD fi [])))).set gi
          (setField "followers" (.arr (fols ++ [.str a]))
            (setField "followers" (.arr fols) (users.getD gi [])))).getD gi []
        = setField "followers" (.arr (fols ++ [.str a]))
            (setField "followers" (.arr fols) (users.getD gi [])) := by
      simp [List.getD_eq_getElem?_getD, List.getElem?_set_self, hlt_gi]
    rw [e4, e5]

theorem toggleResult_length (users : List Doc) (fi gi : Nat) (fl fo nf no : List Value) :
    (toggleResult users fi gi fl fo nf no).length = users.length := by
  simp [toggleResult]

theorem toggleResult_getD_fi (users : List Doc) (fi gi : Nat) (fl fo nf no : List Value)
    (hne : fi ≠ gi) (hfi : fi < users.length) :
    (toggleResult users fi gi fl fo nf no).getD fi []
      = toggledDoc "following" fl nf (users.getD fi []) := by
  simp [toggleResult, List.getD_eq_getElem?_getD, List.getElem?_set_ne (Ne.symm hne),
    List.getElem?_set_self, hfi]

theorem toggleResult_getD_gi (users : List Doc) (fi gi : Nat) (fl fo nf no : List Value)
    (hgi : gi < users.length) :
    (toggleResult users fi gi fl fo nf no).getD gi []
      = toggledDoc "followers" fo no (users.getD gi []) := by
  simp [toggleResult, List.getD_eq_getElem?_getD, List.getElem?_set_self, hgi]

theorem getField_toggledDoc_ne (d : Doc) (k k' : String) (old new : List Value)
    (h : k' ≠ k) :
    getField (toggledDoc k old new d) k' = getField d k' := by
  rw [toggledDoc, getField_setField_ne _ _ _ _ h, getField_setField_ne _ _ _ _ h]

theorem followingOf_toggledDoc (d : Doc) (old new : List Value) :
    followingOf (toggledDoc "following" old new d) = new := by
  rw [toggledDoc]
  exact followingOf_set_self _ _

theorem followersOf_toggledDoc (d : Doc) (old new : List Value) :
    followersOf (toggledDoc "followers" old new d) = new := by
  rw [toggledDoc]
  exact followersOf_set_self _ _

theorem idEq_toggledDoc (d : Doc) (x k : String) (old new : List Value) (h : "id" ≠ k) :
    idEq (toggledDoc k old new d) x = idEq d x := by
  rw [toggledDoc, idEq_setField _ _ _ _ h, idEq_setField _ _ _ _ h]

/-- A toggle write never changes which index `findIndex(u => u.id == x)`
finds: it only reassigns `following`/`followers` fields. -/
theorem findIdxById_toggleResult (users : List Doc) (fi gi : Nat) (fl fo nf no : List Value)
    (x : String) (hne : fi ≠ gi) (hfi : fi < users.length) (hgi : gi < users.length) :
    findIdxById (toggleResult users fi gi fl fo nf no) x = findIdxById users x := by
  rw [toggleResult]
  set A := users.set fi (setField "following" (.arr fl) (users.getD fi [])) with hA
  set B := A.set gi (setField "followers" (.arr fo) (users.getD gi [])) with hB
  set C := B.set fi (toggledDoc "following" fl nf (users.getD fi [])) with hC
  have hgiA : gi < A.length := by rw [hA]; simpa using hgi
  have gA : A.getD gi [] = users.getD gi [] := by
    rw [hA, List.getD_eq_getElem?_getD, List.getElem?_set_ne hne]
    simp [List.getD_eq_getElem?_getD]
  have gB : B.getD fi [] = setField "following" (.arr fl) (users.getD fi []) := by
    rw [hB, List.getD_eq_getElem?_getD, List.getElem?_set_ne (Ne.symm hne), hA,
      List.getElem?_set_self hfi, Option.getD_some]
  have gC : C.getD gi [] = setField "followers" (.arr fo) (users.getD gi []) := by
    rw [hC, List.getD_eq_getElem?_getD, List.getElem?_set_ne hne, hB,
      List.getElem?_set_self hgiA, Option.getD_some]
  rw [findIdxById_set_preserve (by
    rw [gC, idEq_toggledDoc _ _ _ _ _ (by decide), idEq_setField _ _ _ _ (by decide)])]
  rw [hC]
  rw [findIdxById_set_preserve (by
    rw [gB, idEq_toggledDoc _ _ _ _ _ (by decide), idEq_setField _ _ _ _ (by decide)])]
  rw [hB]
  rw [findIdxById_set_preserve (by
    rw [gA, idEq_setField _ _ _ _ (by decide)])]
  rw [hA]
  rw [findIdxById_set_preserve (by rw [idEq_setField _ _ _ _ (by decide)])]

/-- C4: for a pair of distinct existing users whose `following` and
`followers` fields normalize to arrays and which satisfy the data
model's symmetric invariant, the toggle succeeds and re-establishes the
invariant — `b` is in `a`'s following exactly when `a` is in `b`'s
followers — and applying the same toggle twice returns `a`'s following
set and `b`'s followers set to their original membership, while `a`'s
followers and `b`'s following are never touched. -/
theorem toggle_follow_spec (users : List Doc) (a b : String) (fi gi : Nat)
    (follow fols : List Value)
    (hfi : findIdxById users a = some fi) (hgi : findIdxById users b = some gi)
    (hne : fi ≠ gi)
    (hfl : jsOr (getField (users.getD fi []) "following") (.arr []) = .arr follow)
    (hfo : jsOr (getField (users.getD gi []) "followers") (.arr []) = .arr fols)
    (hinv : hasStr follow b = hasStr fols a) :
    toggleOk (toggleFollow users a b) = true ∧
    hasStr (followingOf ((toggleUsers (toggleFollow users a b)).getD fi [])) b
      = hasStr (followersOf ((toggleUsers (toggleFollow users a b)).getD gi [])) a ∧
    (∀ x, hasStr (followingOf ((toggleUsers (toggleFollow
        (toggleUsers (toggleFollow users a b)) a b)).getD fi [])) x = hasStr follow x) ∧
    (∀ x, hasStr (followersOf ((toggleUsers (toggleFollow
        (toggleUsers (toggleFollow users a b)) a b)).getD gi [])) x = hasStr fols x) ∧
    getField ((toggleUsers (toggleFollow
        (toggleUsers (toggleFollow users a b)) a b)).getD fi []) "followers"
      = getField (users.getD fi []) "followers" ∧
    getField ((toggleUsers (toggleFollow
        (toggleUsers (toggleFollow users a b)) a b)).getD gi []) "following"
      = getField (users.getD gi []) "following" := by
  have hlt_fi : fi < users.length := findIdxById_lt_length hfi
  have hlt_gi : gi < users.length := findIdxById_lt_length hgi
  have ht1 := toggle_eq users a b fi gi follow fols hfi hgi hne hfl hfo
  cases hmem : hasStr follow b with
  | true =>
    have hmem2 : hasStr fols a = true := hinv ▸ hmem
    simp only [hmem, if_true] at ht1
    rw [ht1]
    simp only [toggleUsers]
    have hU1fi := toggleResult_getD_fi users fi gi follow fols
      (removeStr follow b) (removeStr fols a) hne hlt_fi
    have hU1gi := toggleResult_getD_gi users fi gi follow fols
      (removeStr follow b) (removeStr fols a) hlt_gi
    have hfi2 : findIdxById (toggleResult users fi gi follow fols
        (removeStr follow b) (removeStr fols a)) a = some fi := by
      rw [findIdxById_toggleResult users fi gi _ _ _ _ a hne hlt_fi hlt_gi]
      exact hfi
    have hgi2 : findIdxById (toggleResult users fi gi follow fols
        (removeStr follow b) (removeStr fols a)) b = some gi := by
      rw [findIdxById_toggleResult users fi gi _ _ _ _ b hne hlt_fi hlt_gi]
      exact hgi
    have hfl2 : jsOr (getField ((toggleResult users fi gi follow fols
        (removeStr follow b) (removeStr fols a)).getD fi []) "following") (.arr [])
        = .arr (removeStr follow b) := by
      rw [hU1fi, toggledDoc, getField_setField_self, jsOr_arr]
    have hfo2 : jsOr (getField ((toggleResult users fi gi follow fols
        (removeStr follow b) (removeStr fols a)).getD gi []) "followers") (.arr [])
        = .arr (removeStr fols a) := by
      rw [hU1gi, toggledDoc, getField_setField_self, jsOr_arr]
    have ht2 := toggle_eq _ a b fi gi (removeStr follow b) (removeStr fols a)
      hfi2 hgi2 hne hfl2 hfo2
    simp only [hasStr_removeStr_self, Bool.false_eq_true, if_false] at ht2
    rw [ht2]
    simp only [toggleUsers]
    have hfi2lt : fi < (toggleResult users fi gi follow fols
        (removeStr follow b) (removeStr fols a)).length := by
      rw [toggleResult_length]; exact hlt_fi
    have hgi2lt : gi < (toggleResult users fi gi follow fols
        (removeStr follow b) (removeStr fols a)).length := by
      rw [toggleResult_length]; exact hlt_gi
    have hU2fi := toggleResult_getD_fi _ fi gi (removeStr follow b) (removeStr fols a)
      (removeStr follow b ++ [.str b]) (removeStr fols a ++ [.str a]) hne hfi2lt
    have hU2gi := toggleResult_getD_gi _ fi gi (removeStr follow b) (removeStr fols a)
      (removeStr follow b ++ [.str b]) (removeStr fols a ++ [.str a]) hgi2lt
    refine ⟨rfl, ?_, ?_, ?_, ?_, ?_⟩
    · rw [hU1fi, hU1gi, followingOf_toggledDoc, followersOf_toggledDoc,
        hasStr_removeStr_self, hasStr_removeStr_self]
    · intro x
      rw [hU2fi, followingOf_toggledDoc, hasStr_append, hasStr_singleton]
      by_cases hxb : b = x
      · subst hxb
        rw [hasStr_removeStr_self, hmem]
        simp
      · rw [beq_eq_false_iff_ne.mpr hxb, hasStr_removeStr_ne follow b x
          (fun h => hxb h.symm)]
        simp
    · intro x
      rw [hU2gi, followersOf_toggledDoc, hasStr_append, hasStr_singleton]
      by_cases hxa : a = x
      · subst hxa
        rw [hasStr_removeStr_self, hmem2]
        simp
      · rw [beq_eq_false_iff_ne.mpr hxa, hasStr_removeStr_ne fols a x
          (fun h => hxa h.symm)]
        simp
    · rw [hU2fi, getField_toggledDoc_ne _ _ _ _ _ (by decide), hU1fi,
        getField_toggledDoc_ne _ _ _ _ _ (by decide)]
    · rw [hU2gi, getField_toggledDoc_ne _ _ _ _ _ (by decide), hU1gi,
        getField_toggledDoc_ne _ _ _ _ _ (by decide)]
  | false =>
    have hmem2 : hasStr fols a = false := hinv ▸ hmem
    simp only [hmem, Bool.false_eq_true, if_false] at ht1
    rw [ht1]
    simp only [toggleUsers]
    have hU1fi := toggleResult_getD_fi users fi gi follow fols
      (follow ++ [.str b]) (fols ++ [.str a]) hne hlt_fi
    have hU1gi := toggleResult_getD_gi users fi gi follow fols
      (follow ++ [.str b]) (fols ++ [.str a]) hlt_gi
    have hfi2 : findIdxById (toggleResult users fi gi follow fols
        (follow ++ [.str b]) (fols ++ [.str a])) a = some fi := by
      rw [findIdxById_toggleResult users fi gi _ _ _ _ a hne hlt_fi hlt_gi]
      exact hfi
    have hgi2 : findIdxById (toggleResult users fi gi follow fols
        (follow ++ [.str b]) (fols ++ [.str a])) b = some gi := by
      rw [findIdxById_toggleResult users fi gi _ _ _ _ b hne hlt_fi hlt_gi]
      exact hgi
    have hfl2 : jsOr (getField ((toggleResult users fi gi follow fols
        (follow ++ [.str b]) (fols ++ [.str a])).getD fi []) "following") (.arr [])
        = .arr (follow ++ [.str b]) := by
      rw [hU1fi, toggledDoc, getField_setField_self, jsOr_arr]
    have hfo2 : jsOr (getField ((toggleResult users fi gi follow fols
        (follow ++ [.str b]) (fols ++ [.str a])).getD gi []) "followers") (.arr [])
        = .arr (fols ++ [.str a]) := by
      rw [hU1gi, toggledDoc, getField_setField_self, jsOr_arr]
    have ht2 := toggle_eq _ a b fi gi (follow ++ [.str b]) (fols ++ [.str a])
      hfi2 hgi2 hne hfl2 hfo2
    have hb2 : hasStr (follow ++ [.str b]) b = true := by
      rw [hasStr_append, hasStr_singleton]
      simp
    simp only [hb2, if_true] at ht2
    rw [ht2]
    simp only [toggleUsers]
    have hfi2lt : fi < (toggleResult users fi gi follow fols
        (follow ++ [.str b]) (fols ++ [.str a])).length := by
      rw [toggleResult_length]; exact hlt_fi
    have hgi2lt : gi < (toggleResult users fi gi follow fols
        (follow ++ [.str b]) (fols ++ [.str a])).length := by
      rw [toggleResult_length]; exact hlt_gi
    have hU2fi := toggleResult_getD_fi _ fi gi (follow ++ [.str b]) (fols ++ [.str a])
      (removeStr (follow ++ [.str b]) b) (removeStr (fols ++ [.str a]) a) hne hfi2lt
    have hU2gi := toggleResult_getD_gi _ fi gi (follow ++ [.str b]) (fols ++ [.str a])
      (removeStr (follow ++ [.str b]) b) (removeStr (fols ++ [.str a]) a) hgi2lt
    have hred1 : removeStr (follow ++ [.str b]) b = follow := by
      rw [removeStr_append, removeStr_singleton_self, removeStr_eq_self follow b hmem,
        List.append_nil]
    have hred2 : removeStr (fols ++ [.str a]) a = fols := by
      rw [removeStr_append, removeStr_singleton_self, removeStr_eq_self fols a hmem2,
        List.append_nil]
    refine ⟨rfl, ?_, ?_, ?_, ?_, ?_⟩
    · rw [hU1fi, hU1gi, followingOf_toggledDoc, followersOf_toggledDoc,
        hasStr_append, hasStr_append, hasStr_singleton, hasStr_singleton]
      simp
    · intro x
      rw [hU2fi, followingOf_toggledDoc, hred1]
    · intro x
      rw [hU2gi, followersOf_toggledDoc, hred2]
    · rw [hU2fi, getField_toggledDoc_ne _ _ _ _ _ (by decide), hU1fi,
        getField_toggledDoc_ne _ _ _ _ _ (by decide)]
    · rw [hU2gi, getField_toggledDoc_ne _ _ _ _ _ (by decide), hU1gi,
        getField_toggledDoc_ne _ _ _ _ _ (by decide)]

/-- Witness for C4: two fresh users with no follow links. -/
theorem toggle_follow_spec_witness :
    toggleOk (toggleFollow [[("id", Value.str "a")], [("id", Value.str "b")]] "a" "b")
      = true ∧
    hasStr (followingOf ((toggleUsers (toggleFollow (toggleUsers (toggleFollow
        [[("id", Value.str "a")], [("id", Value.str "b")]] "a" "b")) "a" "b")).getD 0 []))
      "b" = hasStr ([] : List Value) "b" := by
  have h := toggle_follow_spec [[("id", Value.str "a")], [("id", Value.str "b")]] "a" "b"
    0 1 [] [] (by decide) (by decide) (by decide) (by decide) (by decide) (by decide)
  exact ⟨h.1, h.2.2.1 "b"⟩

end AApp

